import Mathlib

-- Verification of the quizrush backend routes: the OCR upload route and the
-- essay grading route. JS strings are modelled as lists of characters; the
-- outbound HTTP collaborators (Azure OCR, OpenAI, pdf-parse, JSON.parse) are
-- modelled by explicit parameters and executable Lean functions.

def s2l (s : String) : List Char := s.data

-- ASCII whitespace recognised by JS String.prototype.trim (unicode spaces omitted).
def isWsChar (c : Char) : Bool :=
  c = ' ' || c = '\t' || c = '\n' || c = '\r' || c = Char.ofNat 11 || c = Char.ofNat 12

-- JS String.prototype.trim.
def trimLeftC (l : List Char) : List Char := l.dropWhile isWsChar

def trimRightC (l : List Char) : List Char := (l.reverse.dropWhile isWsChar).reverse

def trimC (l : List Char) : List Char := trimRightC (trimLeftC l)

-- JS String.prototype.toLowerCase (ASCII range).
def toLowerC (l : List Char) : List Char := l.map Char.toLower

-- JS String.prototype.split with a one-character separator.
def splitOnChar (sep : Char) : List Char → List (List Char)
  | [] => [[]]
  | c :: rest =>
    if c = sep then [] :: splitOnChar sep rest
    else
      match splitOnChar sep rest with
      | [] => [[c]]
      | p :: ps => (c :: p) :: ps

-- JS Array.prototype.join with a one-character separator.
def joinWith (sep : Char) : List (List Char) → List Char
  | [] => []
  | [x] => x
  | x :: xs => x ++ sep :: joinWith sep xs

-- [...new Set(xs)] : keep the first occurrence of each element, in order.
-- `seen` accumulates the elements already emitted.
def dedupFirstAux (seen : List (List Char)) : List (List Char) → List (List Char)
  | [] => []
  | x :: xs => if x ∈ seen then dedupFirstAux seen xs else x :: dedupFirstAux (x :: seen) xs

def dedupFirst (l : List (List Char)) : List (List Char) := dedupFirstAux [] l

-- ### OCR client (processImageWithOCR in the upload route file)

inductive OcrErr where
  | protocolErr    -- 'Azure did not return operation-location'
  | processingErr  -- 'Azure OCR failed'
  | timeoutErr     -- 'OCR timeout'
deriving DecidableEq

structure OcrLine where
  content : List Char
deriving DecidableEq

structure OcrPage where
  lines : List OcrLine
deriving DecidableEq

-- Body of one poll response: { status, analyzeResult: { pages } }.
structure PollData where
  status : List Char
  pages : List OcrPage

-- lines.push(line.content) for each page, for each line; lines.join('\n').
def flattenPages (pages : List OcrPage) : List Char :=
  joinWith '\n' (pages.flatMap (fun pg => pg.lines.map OcrLine.content))

-- The poll loop: for (let i = 0; i < 15; i++) { sleep 1000; poll; ... }.
-- `poll i` is the body of the i-th GET of the operation-location reference.
-- Result: the outcome together with the list of sleep durations performed (ms).
def pollFrom (poll : Nat → PollData) : Nat → Nat → Except OcrErr (List Char) × List Nat
  | _, 0 => (Except.error OcrErr.timeoutErr, [])
  | i, fuel + 1 =>
    let d := poll i
    if d.status = s2l "succeeded" then (Except.ok (flattenPages d.pages), [1000])
    else if d.status = s2l "failed" then (Except.error OcrErr.processingErr, [1000])
    else
      let r := pollFrom poll (i + 1) fuel
      (r.1, 1000 :: r.2)

-- Submit then poll. `hasOpLocation` models whether the submit response carried
-- an operation-location header.
def processImageWithOCR (hasOpLocation : Bool) (poll : Nat → PollData) :
    Except OcrErr (List Char) × List Nat :=
  if hasOpLocation then pollFrom poll 0 15
  else (Except.error OcrErr.protocolErr, [])

-- ### OCR upload route (router.post('/'))

structure UploadedFile where
  originalname : List Char
  mimetype : List Char

inductive OcrResp where
  | ok (text : List Char)
  | badRequest (error : List Char)
  | serverError (error : List Char) (details : List Char)
deriving DecidableEq

def supportedExtensions : List (List Char) :=
  [s2l "jpg", s2l "jpeg", s2l "png", s2l "pdf"]

-- file.originalname.split('.').pop().toLowerCase()
def extOf (name : List Char) : List Char :=
  toLowerC ((splitOnChar '.' name).getLastD [])

def ocrErrMessage : OcrErr → List Char
  | OcrErr.protocolErr => s2l "Azure did not return operation-location"
  | OcrErr.processingErr => s2l "Azure OCR failed"
  | OcrErr.timeoutErr => s2l "OCR timeout"

-- [...new Set(extractedText.split('\n').filter(l => l.trim()))]
def dedupLines (text : List Char) : List (List Char) :=
  dedupFirst ((splitOnChar '\n' text).filter (fun l => !(trimC l).isEmpty))

-- lines.join('\n')
def dedupText (text : List Char) : List Char := joinWith '\n' (dedupLines text)

-- The upload handler. `pdfTextLayer` is pdf(file.buffer).text (the text-layer
-- extraction, total per the spec), `ocr` the outcome that processImageWithOCR
-- would produce on this request's bytes. The Bool of the result records
-- whether the OCR service was contacted (processImageWithOCR reached).
def ocrRouterPost (file? : Option UploadedFile) (pdfTextLayer : List Char)
    (ocr : Except OcrErr (List Char)) : OcrResp × Bool :=
  match file? with
  | none => (OcrResp.badRequest (s2l "No file uploaded"), false)
  | some file =>
    let ext := extOf file.originalname
    if ¬ (ext ∈ supportedExtensions) then
      (OcrResp.badRequest
        (s2l "Only .jpg, .jpeg, .png images or .pdf documents are supported"), false)
    else if ext = s2l "pdf" then
      -- PDF branch: text layer, then OCR attempt whose failure is swallowed.
      let combined :=
        match ocr with
        | Except.ok ocrText =>
          if ocrText ≠ [] ∧ (trimC ocrText) ≠ [] then
            pdfTextLayer ++ s2l "\n\n" ++ ocrText
          else pdfTextLayer
        | Except.error _ => pdfTextLayer
      if (trimC combined).isEmpty then
        (OcrResp.badRequest
          (s2l "No text found in PDF. The PDF may be empty or contain unsupported content."),
         true)
      else (OcrResp.ok (dedupText combined), true)
    else
      -- Image branch: OCR directly; a thrown error reaches the outer catch.
      match ocr with
      | Except.error e =>
        (OcrResp.serverError (s2l "Text extraction failed") (ocrErrMessage e), true)
      | Except.ok text =>
        if (trimC text).isEmpty then
          (OcrResp.badRequest
            (s2l "No text found in image. Please ensure the image contains clear, readable text."),
           true)
        else (OcrResp.ok text, true)

-- ### JSON values and a model of JSON.parse

inductive Json where
  | null
  | bool (b : Bool)
  | num (q : ℚ)
  | str (s : List Char)
  | arr (elems : List Json)
  | obj (fields : List (List Char × Json))

-- Property access g.key on a parsed value (undefined modelled as none).
def jLookup (j : Json) (key : List Char) : Option Json :=
  match j with
  | Json.obj fields => (fields.find? (fun f => decide (f.1 = key))).map Prod.snd
  | _ => none

-- JS truthiness of a possibly-undefined value.
def jsTruthy : Option Json → Bool
  | none => false
  | some Json.null => false
  | some (Json.bool b) => b
  | some (Json.num q) => decide (q ≠ 0)
  | some (Json.str s) => !s.isEmpty
  | some (Json.arr _) => true
  | some (Json.obj _) => true

def jsonWsChar (c : Char) : Bool := c = ' ' || c = '\t' || c = '\n' || c = '\r'

def skipWs (l : List Char) : List Char := l.dropWhile jsonWsChar

def hexVal (c : Char) : Option Nat :=
  if '0' ≤ c ∧ c ≤ '9' then some (c.toNat - '0'.toNat)
  else if 'a' ≤ c ∧ c ≤ 'f' then some (c.toNat - 'a'.toNat + 10)
  else if 'A' ≤ c ∧ c ≤ 'F' then some (c.toNat - 'A'.toNat + 10)
  else none

def escChar (c : Char) : Option Char :=
  if c = '"' then some '"'
  else if c = '\\' then some '\\'
  else if c = '/' then some '/'
  else if c = 'b' then some (Char.ofNat 8)
  else if c = 'f' then some (Char.ofNat 12)
  else if c = 'n' then some '\n'
  else if c = 'r' then some '\r'
  else if c = 't' then some '\t'
  else none

-- Body of a JSON string after the opening quote.
def parseStringRest : List Char → Option (List Char × List Char)
  | [] => none
  | '"' :: r => some ([], r)
  | '\\' :: 'u' :: h1 :: h2 :: h3 :: h4 :: r =>
    match hexVal h1, hexVal h2, hexVal h3, hexVal h4 with
    | some a, some b, some c, some d =>
      (parseStringRest r).map
        (fun p => (Char.ofNat (((a * 16 + b) * 16 + c) * 16 + d) :: p.1, p.2))
    | _, _, _, _ => none
  | '\\' :: e :: r =>
    match escChar e with
    | some ec => (parseStringRest r).map (fun p => (ec :: p.1, p.2))
    | none => none
  | c :: r => (parseStringRest r).map (fun p => (c :: p.1, p.2))

def readDigits (l : List Char) : Option (Nat × Nat × List Char) :=
  let ds := l.takeWhile Char.isDigit
  if ds.isEmpty then none
  else some (ds.foldl (fun a c => a * 10 + (c.toNat - '0'.toNat)) 0, ds.length,
             l.dropWhile Char.isDigit)

-- Unsigned JSON number: digits, optional fraction, optional exponent.
def parseUnsigned (l : List Char) : Option (ℚ × List Char) :=
  match readDigits l with
  | none => none
  | some (ip, _, l1) =>
    let withFrac : Option (ℚ × List Char) :=
      match l1 with
      | '.' :: r =>
        match readDigits r with
        | some (fp, k, l2) => some ((ip : ℚ) + (fp : ℚ) / (10 : ℚ) ^ k, l2)
        | none => none
      | _ => some ((ip : ℚ), l1)
    match withFrac with
    | none => none
    | some (m, l2) =>
      match l2 with
      | c :: r =>
        if c = 'e' ∨ c = 'E' then
          match r with
          | '+' :: r2 =>
            match readDigits r2 with
            | some (e, _, l3) => some (m * (10 : ℚ) ^ e, l3)
            | none => none
          | '-' :: r2 =>
            match readDigits r2 with
            | some (e, _, l3) => some (m / (10 : ℚ) ^ e, l3)
            | none => none
          | _ =>
            match readDigits r with
            | some (e, _, l3) => some (m * (10 : ℚ) ^ e, l3)
            | none => none
        else some (m, l2)
      | [] => some (m, [])

def parseNumToken (l : List Char) : Option (ℚ × List Char) :=
  match l with
  | '-' :: r => (parseUnsigned r).map (fun p => (-p.1, p.2))
  | _ => parseUnsigned l

def lbraceChar : Char := Char.ofNat 123

def rbraceChar : Char := Char.ofNat 125

mutual

def parseVal : Nat → List Char → Option (Json × List Char)
  | 0, _ => none
  | fuel + 1, l =>
    match skipWs l with
    | [] => none
    | c :: r =>
      if c = '"' then (parseStringRest r).map (fun p => (Json.str p.1, p.2))
      else if c = '[' then
        match skipWs r with
        | ']' :: r2 => some (Json.arr [], r2)
        | _ => (parseElems fuel r).map (fun p => (Json.arr p.1, p.2))
      else if c = lbraceChar then
        match skipWs r with
        | [] => none
        | c2 :: r2 =>
          if c2 = rbraceChar then some (Json.obj [], r2)
          else (parseMembers fuel r).map (fun p => (Json.obj p.1, p.2))
      else if c = 'n' then
        match r with
        | 'u' :: 'l' :: 'l' :: r2 => some (Json.null, r2)
        | _ => none
      else if c = 't' then
        match r with
        | 'r' :: 'u' :: 'e' :: r2 => some (Json.bool true, r2)
        | _ => none
      else if c = 'f' then
        match r with
        | 'a' :: 'l' :: 's' :: 'e' :: r2 => some (Json.bool false, r2)
        | _ => none
      else (parseNumToken (c :: r)).map (fun p => (Json.num p.1, p.2))

def parseElems : Nat → List Char → Option (List Json × List Char)
  | 0, _ => none
  | fuel + 1, l =>
    match parseVal fuel l with
    | none => none
    | some (v, r) =>
      match skipWs r with
      | ',' :: r2 => (parseElems fuel r2).map (fun p => (v :: p.1, p.2))
      | ']' :: r2 => some ([v], r2)
      | _ => none

def parseMembers : Nat → List Char → Option (List (List Char × Json) × List Char)
  | 0, _ => none
  | fuel + 1, l =>
    match skipWs l with
    | '"' :: r =>
      match parseStringRest r with
      | none => none
      | some (key, r2) =>
        match skipWs r2 with
        | ':' :: r3 =>
          match parseVal fuel r3 with
          | none => none
          | some (v, r4) =>
            match skipWs r4 with
            | [] => none
            | c :: r5 =>
              if c = ',' then (parseMembers fuel r5).map (fun p => ((key, v) :: p.1, p.2))
              else if c = rbraceChar then some ([(key, v)], r5)
              else none
        | _ => none
    | _ => none

end

-- Model of JSON.parse: parse one value, allow trailing whitespace only.
def jsonParse (l : List Char) : Option Json :=
  match parseVal (2 * l.length + 2) l with
  | some (v, r) => if (skipWs r).isEmpty then some v else none
  | none => none

-- ### Fenced code-block stripping (the .replace chain on the AI response)

def btick : Char := Char.ofNat 96

-- Case-insensitive "json" right after the backticks (the (json)? group with /i).
def isJsonTag : List Char → Bool
  | c1 :: c2 :: c3 :: c4 :: _ =>
    (c1 == 'j' || c1 == 'J') && (c2 == 's' || c2 == 'S')
      && (c3 == 'o' || c3 == 'O') && (c4 == 'n' || c4 == 'N')
  | _ => false

-- .replace(/```(json)?/gi, '') : left-to-right removal of every match.
def stripTicksJson : List Char → List Char
  | c1 :: c2 :: c3 :: rest =>
    if c1 = btick ∧ c2 = btick ∧ c3 = btick then
      if isJsonTag rest then
        match rest with
        | _ :: _ :: _ :: _ :: rest2 => stripTicksJson rest2
        | r => stripTicksJson r
      else stripTicksJson rest
    else c1 :: stripTicksJson (c2 :: c3 :: rest)
  | l => l

-- .replace(/```/g, '')
def stripTicks : List Char → List Char
  | c1 :: c2 :: c3 :: rest =>
    if c1 = btick ∧ c2 = btick ∧ c3 = btick then stripTicks rest
    else c1 :: stripTicks (c2 :: c3 :: rest)
  | l => l

-- Whether a ``` fence marker occurs anywhere in the string.
def hasFence : List Char → Bool
  | c1 :: c2 :: c3 :: rest =>
    if c1 = btick ∧ c2 = btick ∧ c3 = btick then true
    else hasFence (c2 :: c3 :: rest)
  | _ => false

-- The clean-up applied to the (already trimmed) raw AI response.
def stripFences (l : List Char) : List Char := trimC (stripTicks (stripTicksJson l))

-- A payload wrapped in ```json ... ``` fences.
def wrapFences (p : List Char) : List Char :=
  btick :: btick :: btick :: s2l "json" ++ '\n' :: p ++ '\n' :: btick :: btick :: btick :: []

-- ### Essay grading route (router.post('/grade-essay'))

inductive EssayResp where
  | ok (body : Json)
  | badRequest (error : List Char)
  | serverError (error : List Char) (details : Option (List Char))

-- !x for a possibly-absent string field (undefined and '' are falsy).
def jsFalsyStr : Option (List Char) → Bool
  | none => true
  | some s => s.isEmpty

-- const numCriteria = Object.keys(rubric).length || 4;
def numCriteria (rubric : List (List Char × List Char)) : Nat :=
  if rubric.length = 0 then 4 else rubric.length

-- const maxPerCriterion = max_score / numCriteria;
def maxPerCriterion (rubric : List (List Char × List Char)) (max_score : ℚ) : ℚ :=
  max_score / (numCriteria rubric : ℚ)

-- typeof gradingResult.score === 'number'
def scoreIsNumber (g : Json) : Bool :=
  match jLookup g (s2l "score") with
  | some (Json.num _) => true
  | _ => false

-- The grading handler's response, as a function of the request fields (after
-- the destructuring defaults rubric = {}, max_score = 10) and of the content
-- returned by the chat-completion call. rubric and max_score only feed the
-- prompt sent to the external model, so they do not influence the response.
def gradeEssayPost (question answer : Option (List Char))
    (rubric : List (List Char × List Char)) (max_score : ℚ)
    (aiContent : List Char) : EssayResp :=
  if jsFalsyStr question || jsFalsyStr answer then
    EssayResp.badRequest (s2l "Missing required fields: question and answer are required.")
  else if (trimC (answer.getD [])).isEmpty then
    EssayResp.badRequest (s2l "Answer cannot be empty.")
  else
    let _mpc := maxPerCriterion rubric max_score
    let cleaned := stripFences (trimC aiContent)
    match jsonParse cleaned with
    | none => EssayResp.serverError (s2l "Failed to parse AI response.") (some cleaned)
    | some g =>
      if scoreIsNumber g && jsTruthy (jLookup g (s2l "feedback"))
          && jsTruthy (jLookup g (s2l "breakdown")) then
        EssayResp.ok g
      else
        EssayResp.serverError (s2l "Invalid grading response structure from AI.") none

-- ### Projection helpers used in concrete statements

def EssayResp.isOk : EssayResp → Bool
  | EssayResp.ok _ => true
  | _ => false

def respBody : EssayResp → Option Json
  | EssayResp.ok g => some g
  | _ => none

def respBodyD (r : EssayResp) : Json := (respBody r).getD Json.null

def jField (o : Option Json) (key : List Char) : Option Json :=
  o.bind (fun g => jLookup g key)

def jNumOf : Option Json → Option ℚ
  | some (Json.num q) => some q
  | _ => none

def jStrOf : Option Json → Option (List Char)
  | some (Json.str s) => some s
  | _ => none

-- ### Concrete inputs used by counterexamples and witnesses

def pollStuck : Nat → PollData := fun _ => ⟨s2l "running", []⟩

def pollSuccAt0 : Nat → PollData := fun _ => ⟨s2l "succeeded", [⟨[⟨s2l "ab"⟩, ⟨s2l "cd"⟩]⟩]⟩

def pollFailAt0 : Nat → PollData := fun _ => ⟨s2l "failed", []⟩

def cexRubric : List (List Char × List Char) := [(s2l "accuracy", s2l "correctness")]

-- An upstream grading reply that passes the handler's validation although its
-- score is negative and its per-criterion max is not max_score / numCriteria.
def cexAiResponse : List Char :=
  s2l "\x7b\"score\":-1,\"max_score\":10,\"feedback\":\"bad\",\"breakdown\":\x7b\"accuracy\":\x7b\"score\":-1,\"max\":99,\"comment\":\"x\"\x7d\x7d\x7d"

-- A well-formed grading reply, for the witnesses.
def goodAiResponse : List Char :=
  s2l "\x7b\"score\":5,\"max_score\":10,\"feedback\":\"ok\",\"breakdown\":\x7b\x7d\x7d"

-- A fenced non-JSON reply.
def cexFencedGarbage : List Char := s2l "```\nnot json\n```"

-- A JSON payload containing a fence marker inside a string literal.
def cexPayload : List Char := s2l "\x7b\"a\":\"x```y\"\x7d"

-- A fence-free JSON payload.
def plainPayload : List Char := s2l "\x7b\"a\":1\x7d"

-- ### Lemmas about trimming

theorem trimRightC_eq_nil_iff (l : List Char) :
    trimRightC l = [] ↔ ∀ c ∈ l, isWsChar c = true := by
  unfold trimRightC
  rw [List.reverse_eq_nil_iff, List.dropWhile_eq_nil_iff]
  constructor
  · intro h c hc
    exact h c (List.mem_reverse.mpr hc)
  · intro h c hc
    exact h c (List.mem_reverse.mp hc)

theorem trimC_eq_nil_iff (l : List Char) :
    trimC l = [] ↔ ∀ c ∈ l, isWsChar c = true := by
  unfold trimC
  rw [trimRightC_eq_nil_iff]
  constructor
  · intro h c hc
    have hl := List.takeWhile_append_dropWhile isWsChar l
    rw [← hl] at hc
    rcases List.mem_append.mp hc with h1 | h2
    · exact List.mem_takeWhile_imp h1
    · exact h c h2
  · intro h c hc
    exact h c ((List.dropWhile_sublist _).subset hc)

theorem trimC_ne_nil_of_mem (c : Char) (l : List Char) (hc : c ∈ l)
    (hw : isWsChar c = false) : trimC l ≠ [] := by
  intro h
  have h2 := (trimC_eq_nil_iff l).mp h c hc
  rw [hw] at h2
  exact Bool.false_ne_true h2

theorem trimC_cons_ws (c : Char) (l : List Char) (h : isWsChar c = true) :
    trimC (c :: l) = trimC l := by
  unfold trimC trimLeftC
  rw [List.dropWhile_cons_of_pos h]

theorem trimRightC_append_ws (c : Char) (l : List Char) (h : isWsChar c = true) :
    trimRightC (l ++ [c]) = trimRightC l := by
  unfold trimRightC
  rw [List.reverse_append]
  simp only [List.reverse_cons, List.reverse_nil, List.nil_append, List.singleton_append]
  rw [List.dropWhile_cons_of_pos h]

theorem trimC_append_ws (c : Char) (l : List Char) (h : isWsChar c = true) :
    trimC (l ++ [c]) = trimC l := by
  unfold trimC trimLeftC
  rw [List.dropWhile_append]
  split
  · rename_i hemp
    have h1 : List.dropWhile isWsChar [c] = [] := by
      rw [List.dropWhile_cons_of_pos h]
      rfl
    rw [h1, List.isEmpty_iff.mp hemp]
  · exact trimRightC_append_ws c _ h

-- ### Lemmas about dedupFirst

theorem dedupFirstAux_sublist (seen l : List (List Char)) :
    List.Sublist (dedupFirstAux seen l) l := by
  induction l generalizing seen with
  | nil => simp [dedupFirstAux]
  | cons x xs ih =>
    rw [dedupFirstAux]
    split
    · exact (ih seen).trans (List.sublist_cons_self x xs)
    · exact List.Sublist.cons₂ x (ih (x :: seen))

theorem mem_dedupFirstAux (a : List Char) (seen l : List (List Char)) :
    a ∈ dedupFirstAux seen l ↔ a ∈ l ∧ a ∉ seen := by
  induction l generalizing seen with
  | nil => simp [dedupFirstAux]
  | cons x xs ih =>
    rw [dedupFirstAux]
    split
    · rename_i hx
      rw [ih seen, List.mem_cons]
      constructor
      · rintro ⟨h1, h2⟩
        exact ⟨Or.inr h1, h2⟩
      · rintro ⟨h1 | h1, h2⟩
        · exact absurd (h1 ▸ hx) h2
        · exact ⟨h1, h2⟩
    · rename_i hx
      rw [List.mem_cons, ih (x :: seen)]
      constructor
      · rintro (rfl | ⟨h1, h2⟩)
        · exact ⟨List.mem_cons_self a xs, hx⟩
        · exact ⟨List.mem_cons_of_mem x h1,
            fun hs => h2 (List.mem_cons_of_mem x hs)⟩
      · rintro ⟨h1, h2⟩
        by_cases hax : a = x
        · exact Or.inl hax
        · rcases List.mem_cons.mp h1 with h3 | h3
          · exact absurd h3 hax
          · refine Or.inr ⟨h3, fun hs => ?_⟩
            rcases List.mem_cons.mp hs with h4 | h4
            · exact hax h4
            · exact h2 h4

theorem dedupFirstAux_nodup (seen l : List (List Char)) :
    (dedupFirstAux seen l).Nodup := by
  induction l generalizing seen with
  | nil => simp [dedupFirstAux]
  | cons x xs ih =>
    rw [dedupFirstAux]
    split
    · exact ih seen
    · refine List.nodup_cons.mpr ⟨?_, ih (x :: seen)⟩
      intro hmem
      exact ((mem_dedupFirstAux x (x :: seen) xs).mp hmem).2 (List.mem_cons_self x seen)

theorem dedupFirst_sublist (l : List (List Char)) : List.Sublist (dedupFirst l) l :=
  dedupFirstAux_sublist [] l

theorem dedupFirst_nodup (l : List (List Char)) : (dedupFirst l).Nodup :=
  dedupFirstAux_nodup [] l

theorem mem_dedupFirst (a : List Char) (l : List (List Char)) :
    a ∈ dedupFirst l ↔ a ∈ l := by
  unfold dedupFirst
  rw [mem_dedupFirstAux]
  simp

-- ### Lemmas about splitOnChar and joinWith

theorem splitOnChar_ne_nil (sep : Char) (l : List Char) : splitOnChar sep l ≠ [] := by
  induction l with
  | nil => simp [splitOnChar]
  | cons c rest ih =>
    rw [splitOnChar]
    split
    · simp
    · cases h : splitOnChar sep rest with
      | nil => simp
      | cons p ps => simp [h]

theorem exists_piece_of_mem (sep c : Char) (l : List Char) (hc : c ∈ l) (hne : c ≠ sep) :
    ∃ p ∈ splitOnChar sep l, c ∈ p := by
  induction l with
  | nil => cases hc
  | cons x rest ih =>
    rw [splitOnChar]
    by_cases hx : x = sep
    · rw [if_pos hx]
      rcases List.mem_cons.mp hc with rfl | hcr
      · exact absurd hx hne
      · obtain ⟨p, hp, hcp⟩ := ih hcr
        exact ⟨p, List.mem_cons_of_mem _ hp, hcp⟩
    · rw [if_neg hx]
      cases hsp : splitOnChar sep rest with
      | nil => exact absurd hsp (splitOnChar_ne_nil sep rest)
      | cons p ps =>
        rcases List.mem_cons.mp hc with rfl | hcr
        · exact ⟨c :: p, List.mem_cons_self _ _, List.mem_cons_self _ _⟩
        · obtain ⟨q, hq, hcq⟩ := ih hcr
          rw [hsp] at hq
          rcases List.mem_cons.mp hq with rfl | hq2
          · exact ⟨x :: q, List.mem_cons_self _ _, List.mem_cons_of_mem _ hcq⟩
          · exact ⟨q, List.mem_cons_of_mem _ hq2, hcq⟩

theorem splitOnChar_append (sep : Char) (a b : List Char) :
    splitOnChar sep (a ++ sep :: b) = splitOnChar sep a ++ splitOnChar sep b := by
  induction a with
  | nil => simp [splitOnChar]
  | cons x a ih =>
    by_cases hx : x = sep
    · rw [List.cons_append, splitOnChar, if_pos hx, ih, splitOnChar, if_pos hx]
      rfl
    · rw [List.cons_append, splitOnChar, if_neg hx, ih, splitOnChar, if_neg hx]
      cases h : splitOnChar sep a with
      | nil => exact absurd h (splitOnChar_ne_nil sep a)
      | cons p ps => simp

theorem splitOnChar_of_not_mem (sep : Char) (l : List Char) (h : sep ∉ l) :
    splitOnChar sep l = [l] := by
  induction l with
  | nil => rfl
  | cons x rest ih =>
    have hx : ¬ x = sep := fun hx => h (by rw [← hx]; exact List.mem_cons_self x rest)
    rw [splitOnChar, if_neg hx, ih (fun hr => h (List.mem_cons_of_mem x hr))]

theorem mem_joinWith_head (sep c : Char) (x : List Char) (xs : List (List Char))
    (hc : c ∈ x) : c ∈ joinWith sep (x :: xs) := by
  cases xs with
  | nil => simpa [joinWith] using hc
  | cons y ys =>
    have hj : joinWith sep (x :: y :: ys) = x ++ sep :: joinWith sep (y :: ys) := rfl
    rw [hj]
    exact List.mem_append.mpr (Or.inl hc)

-- A non-blank input deduplicates to a non-blank output.
theorem trimC_dedupText_ne_nil (s : List Char) (h : trimC s ≠ []) :
    trimC (dedupText s) ≠ [] := by
  have h1 : ¬ ∀ c ∈ s, isWsChar c = true := fun hall => h ((trimC_eq_nil_iff s).mpr hall)
  push_neg at h1
  obtain ⟨c, hcs, hcw⟩ := h1
  have hcwf : isWsChar c = false := by
    cases hw : isWsChar c
    · rfl
    · exact absurd hw hcw
  have hcn : c ≠ '\n' := by
    intro hceq
    rw [hceq] at hcwf
    simp [isWsChar] at hcwf
  obtain ⟨p, hp, hcp⟩ := exists_piece_of_mem '\n' c s hcs hcn
  have hpb : (!(trimC p).isEmpty) = true := by
    rw [Bool.not_eq_true']
    rw [List.isEmpty_eq_false]
    exact trimC_ne_nil_of_mem c p hcp hcwf
  have hpf : p ∈ (splitOnChar '\n' s).filter (fun l => !(trimC l).isEmpty) :=
    List.mem_filter.mpr ⟨hp, hpb⟩
  cases hflt : (splitOnChar '\n' s).filter (fun l => !(trimC l).isEmpty) with
  | nil =>
    rw [hflt] at hpf
    cases hpf
  | cons q rest =>
    have hq : q ∈ (splitOnChar '\n' s).filter (fun l => !(trimC l).isEmpty) := by
      rw [hflt]
      exact List.mem_cons_self q rest
    have hqb : trimC q ≠ [] := by
      have h2 := (List.mem_filter.mp hq).2
      rw [Bool.not_eq_true', List.isEmpty_eq_false] at h2
      exact h2
    have h3 : ¬ ∀ c2 ∈ q, isWsChar c2 = true :=
      fun hall => hqb ((trimC_eq_nil_iff q).mpr hall)
    push_neg at h3
    obtain ⟨c2, hc2q, hc2w⟩ := h3
    have hc2wf : isWsChar c2 = false := by
      cases hw : isWsChar c2
      · rfl
      · exact absurd hw hc2w
    have hded : dedupLines s = q :: dedupFirstAux [q] rest := by
      unfold dedupLines dedupFirst
      rw [hflt, dedupFirstAux]
      simp
    have hc2j : c2 ∈ dedupText s := by
      unfold dedupText
      rw [hded]
      exact mem_joinWith_head '\n' c2 q _ hc2q
    exact trimC_ne_nil_of_mem c2 (dedupText s) hc2j hc2wf

-- ### Lemmas about fence stripping

theorem stripTicksJson_cons3 (c1 c2 c3 : Char) (rest : List Char)
    (h : ¬ (c1 = btick ∧ c2 = btick ∧ c3 = btick)) :
    stripTicksJson (c1 :: c2 :: c3 :: rest) = c1 :: stripTicksJson (c2 :: c3 :: rest) := by
  rcases rest with _ | ⟨c4, _ | ⟨c5, _ | ⟨c6, _ | ⟨c7, tail⟩⟩⟩⟩ <;>
    rw [stripTicksJson, if_neg h]
  all_goals simp

theorem stripTicksJson_cons_ne (c : Char) (l : List Char) (h : c ≠ btick) :
    stripTicksJson (c :: l) = c :: stripTicksJson l := by
  rcases l with _ | ⟨a, _ | ⟨b, t⟩⟩
  · rfl
  · rfl
  · exact stripTicksJson_cons3 c a b t (fun hand => h hand.1)

theorem stripTicks_cons_ne (c : Char) (l : List Char) (h : c ≠ btick) :
    stripTicks (c :: l) = c :: stripTicks l := by
  rcases l with _ | ⟨a, _ | ⟨b, t⟩⟩
  · rfl
  · rfl
  · rw [stripTicks, if_neg (fun hand => h hand.1)]

theorem hasFence_cons_ne (c : Char) (l : List Char) (h : c ≠ btick) :
    hasFence (c :: l) = hasFence l := by
  rcases l with _ | ⟨a, _ | ⟨b, t⟩⟩
  · rfl
  · rfl
  · rw [hasFence, if_neg (fun hand => h hand.1)]

theorem hasFence_tail (c : Char) (l : List Char) (h : hasFence (c :: l) = false) :
    hasFence l = false := by
  rcases l with _ | ⟨a, _ | ⟨b, t⟩⟩
  · rfl
  · rfl
  · rw [hasFence] at h
    split at h
    · exact absurd h (by simp)
    · exact h

theorem hasFence_append_ne (l : List Char) (c : Char) (hc : c ≠ btick)
    (h : hasFence l = false) : hasFence (l ++ [c]) = false := by
  induction l with
  | nil => rfl
  | cons x xs ih =>
    have hxs : hasFence xs = false := hasFence_tail x xs h
    rcases xs with _ | ⟨a, _ | ⟨b, t⟩⟩
    · rfl
    · show hasFence (x :: a :: c :: []) = false
      rw [hasFence, if_neg (fun hand => hc hand.2.2)]
      rfl
    · rw [hasFence] at h
      split at h
      · exact absurd h (by simp)
      · rename_i hcond
        show hasFence (x :: a :: b :: (t ++ [c])) = false
        rw [hasFence, if_neg hcond]
        have := ih h
        simpa using this

theorem stripTicksJson_of_no_fence (l : List Char) (h : hasFence l = false) :
    stripTicksJson l = l := by
  induction l with
  | nil => rfl
  | cons x xs ih =>
    rcases xs with _ | ⟨a, _ | ⟨b, t⟩⟩
    · rfl
    · rfl
    · rw [hasFence] at h
      split at h
      · exact absurd h (by simp)
      · rename_i hcond
        rw [stripTicksJson_cons3 x a b t hcond, ih h]

theorem stripTicks_of_no_fence (l : List Char) (h : hasFence l = false) :
    stripTicks l = l := by
  induction l with
  | nil => rfl
  | cons x xs ih =>
    rcases xs with _ | ⟨a, _ | ⟨b, t⟩⟩
    · rfl
    · rfl
    · rw [hasFence] at h
      split at h
      · exact absurd h (by simp)
      · rename_i hcond
        rw [stripTicks, if_neg hcond, ih h]

theorem stripTicksJson_append_nl (p q : List Char) (h : hasFence p = false) :
    stripTicksJson (p ++ '\n' :: q) = p ++ stripTicksJson ('\n' :: q) := by
  induction p with
  | nil => rfl
  | cons x p ih =>
    have hp : hasFence p = false := hasFence_tail x p h
    rcases p with _ | ⟨a, _ | ⟨b, t⟩⟩
    · show stripTicksJson (x :: '\n' :: q) = [x] ++ stripTicksJson ('\n' :: q)
      rcases q with _ | ⟨c, q2⟩
      · rfl
      · rw [stripTicksJson_cons3 x '\n' c q2 (fun hand => absurd hand.2.1 (by decide))]
        rfl
    · show stripTicksJson (x :: a :: '\n' :: q) = [x, a] ++ stripTicksJson ('\n' :: q)
      rw [stripTicksJson_cons3 x a '\n' q (fun hand => absurd hand.2.2 (by decide))]
      have := ih hp
      simp only [List.singleton_append] at this
      rw [this]
      rfl
    · rw [hasFence] at h
      split at h
      · exact absurd h (by simp)
      · rename_i hcond
        show stripTicksJson (x :: a :: b :: (t ++ '\n' :: q)) = _
        rw [stripTicksJson_cons3 x a b (t ++ '\n' :: q) hcond]
        have := ih hp
        simp only [List.cons_append] at this ⊢
        rw [this]

theorem stripFences_wrap (p : List Char) (h : hasFence p = false) :
    stripFences (wrapFences p) = trimC p := by
  have h0 : wrapFences p
      = btick :: btick :: btick
        :: ('j' :: 's' :: 'o' :: 'n' :: '\n' :: (p ++ '\n' :: btick :: btick :: btick :: [])) :=
    rfl
  unfold stripFences
  rw [h0, stripTicksJson, if_pos ⟨rfl, rfl, rfl⟩,
      if_pos (show isJsonTag ('j' :: 's' :: 'o' :: 'n' :: '\n'
        :: (p ++ '\n' :: btick :: btick :: btick :: [])) = true from rfl)]
  rw [stripTicksJson_cons_ne '\n' _ (by decide)]
  rw [stripTicksJson_append_nl p _ h]
  rw [show stripTicksJson ('\n' :: btick :: btick :: btick :: []) = ['\n'] from rfl]
  have h1 : hasFence ('\n' :: (p ++ ['\n'])) = false := by
    rw [hasFence_cons_ne '\n' _ (by decide)]
    exact hasFence_append_ne p '\n' (by decide) h
  rw [stripTicks_of_no_fence _ h1]
  rw [trimC_cons_ws '\n' _ (by decide)]
  exact trimC_append_ws '\n' p (by decide)

-- ### Lemmas about the poll loop

theorem pollFrom_sleeps (poll : Nat → PollData) (fuel i : Nat) :
    (pollFrom poll i fuel).2.length ≤ fuel ∧ ∀ d ∈ (pollFrom poll i fuel).2, d = 1000 := by
  induction fuel generalizing i with
  | zero => simp [pollFrom]
  | succ f ih =>
    simp only [pollFrom]
    split
    · simp
    · split
      · simp
      · obtain ⟨h1, h2⟩ := ih (i + 1)
        constructor
        · simpa using Nat.succ_le_succ h1
        · intro d hd
          rcases List.mem_cons.mp hd with rfl | hd2
          · rfl
          · exact h2 d hd2

theorem pollFrom_timeout (poll : Nat → PollData) (fuel i : Nat)
    (h : ∀ k, k < fuel → (poll (i + k)).status ≠ s2l "succeeded"
        ∧ (poll (i + k)).status ≠ s2l "failed") :
    (pollFrom poll i fuel).1 = Except.error OcrErr.timeoutErr := by
  induction fuel generalizing i with
  | zero => simp [pollFrom]
  | succ f ih =>
    have h0 := h 0 (Nat.succ_pos f)
    simp only [Nat.add_zero] at h0
    simp only [pollFrom]
    rw [if_neg h0.1, if_neg h0.2]
    refine ih (i + 1) (fun k hk => ?_)
    have hke := h (k + 1) (by omega)
    have heq : i + 1 + k = i + (k + 1) := by omega
    rw [heq]
    exact hke

theorem pollFrom_terminal (poll : Nat → PollData) (fuel : Nat) :
    ∀ (k i : Nat), k < fuel →
    (∀ j, j < k → (poll (i + j)).status ≠ s2l "succeeded"
        ∧ (poll (i + j)).status ≠ s2l "failed") →
    ((poll (i + k)).status = s2l "succeeded" →
      (pollFrom poll i fuel).1 = Except.ok (flattenPages (poll (i + k)).pages))
    ∧ ((poll (i + k)).status = s2l "failed" →
      (pollFrom poll i fuel).1 = Except.error OcrErr.processingErr) := by
  induction fuel with
  | zero =>
    intro k i hk
    exact absurd hk (Nat.not_lt_zero k)
  | succ f ih =>
    intro k i hk hbefore
    cases k with
    | zero =>
      constructor
      · intro hs
        simp only [Nat.add_zero] at hs
        simp only [pollFrom]
        rw [if_pos hs]
        simp
      · intro hs
        simp only [Nat.add_zero] at hs
        simp only [pollFrom]
        rw [if_neg (by rw [hs]; decide), if_pos hs]
    | succ m =>
      have h0 := hbefore 0 (Nat.succ_pos m)
      simp only [Nat.add_zero] at h0
      simp only [pollFrom]
      rw [if_neg h0.1, if_neg h0.2]
      have hrec := ih m (i + 1) (by omega) (fun j hj => by
        have hb := hbefore (j + 1) (by omega)
        have heq : i + 1 + j = i + (j + 1) := by omega
        rw [heq]
        exact hb)
      have heq : i + 1 + m = i + (m + 1) := by omega
      rw [heq] at hrec
      exact hrec

-- ### Lemma about extension extraction

theorem extOf_suffix (pre suf : List Char) (hdot : '.' ∉ suf) :
    extOf (pre ++ '.' :: suf) = toLowerC suf := by
  unfold extOf
  rw [splitOnChar_append '.' pre suf, splitOnChar_of_not_mem '.' suf hdot,
      List.getLastD_concat]

theorem ne_nil_of_not_isEmpty (l : List Char) (h : ¬ l.isEmpty = true) : l ≠ [] :=
  fun hn => h (List.isEmpty_iff.mpr hn)

-- ### Claim theorems

/-- Claim C1: for every uploaded file whose filename's lowercased suffix after
the last dot lies outside jpg/jpeg/png/pdf, the OCR handler answers with the
400 unsupported-type rejection and the OCR service is never contacted. -/
theorem claim_C1 (file : UploadedFile) (pdfTextLayer : List Char)
    (ocr : Except OcrErr (List Char)) (pre suf : List Char)
    (hname : file.originalname = pre ++ '.' :: suf)
    (hdot : '.' ∉ suf)
    (hbad : toLowerC suf ∉ supportedExtensions) :
    ocrRouterPost (some file) pdfTextLayer ocr
      = (OcrResp.badRequest
          (s2l "Only .jpg, .jpeg, .png images or .pdf documents are supported"), false) := by
  have hext : extOf file.originalname = toLowerC suf := by
    rw [hname]
    exact extOf_suffix pre suf hdot
  simp only [ocrRouterPost]
  rw [hext, if_pos hbad]

/-- Witness for C1 at the filename "notes.gif". -/
theorem claim_C1_witness :
    ocrRouterPost (some ⟨s2l "notes.gif", s2l "image/gif"⟩) [] (Except.ok (s2l "hi"))
      = (OcrResp.badRequest
          (s2l "Only .jpg, .jpeg, .png images or .pdf documents are supported"), false) :=
  claim_C1 ⟨s2l "notes.gif", s2l "image/gif"⟩ [] (Except.ok (s2l "hi"))
    (s2l "notes") (s2l "gif") rfl (by decide) (by decide)

/-- Claim C2: the OCR client polls at most 15 times, sleeping a fixed 1000 ms
before each poll; the first terminal poll decides the outcome: "succeeded"
returns all recognized lines across all pages in page order then line order
joined by newline, "failed" raises the upstream-processing error, and 15
non-terminal polls raise the timeout error. -/
theorem claim_C2 (poll : Nat → PollData) :
    ((processImageWithOCR true poll).2.length ≤ 15
      ∧ ∀ d ∈ (processImageWithOCR true poll).2, d = 1000)
    ∧ ((∀ i, i < 15 → (poll i).status ≠ s2l "succeeded" ∧ (poll i).status ≠ s2l "failed") →
        (processImageWithOCR true poll).1 = Except.error OcrErr.timeoutErr)
    ∧ (∀ i, i < 15 →
        (∀ j, j < i → (poll j).status ≠ s2l "succeeded" ∧ (poll j).status ≠ s2l "failed") →
        ((poll i).status = s2l "succeeded" →
          (processImageWithOCR true poll).1 = Except.ok (flattenPages (poll i).pages))
        ∧ ((poll i).status = s2l "failed" →
          (processImageWithOCR true poll).1 = Except.error OcrErr.processingErr)) := by
  have hp : processImageWithOCR true poll = pollFrom poll 0 15 := rfl
  rw [hp]
  refine ⟨pollFrom_sleeps poll 15 0, ?_, ?_⟩
  · intro h
    exact pollFrom_timeout poll 15 0 (fun k hk => by simpa using h k hk)
  · intro i hi hbefore
    have hterm := pollFrom_terminal poll 15 i 0 hi (fun j hj => by simpa using hbefore j hj)
    simpa using hterm

/-- Witness for C2: a stuck poll times out, an immediately succeeding poll
returns the joined lines, an immediately failing poll raises the processing
error. -/
theorem claim_C2_witness :
    (processImageWithOCR true pollStuck).1 = Except.error OcrErr.timeoutErr
    ∧ (processImageWithOCR true pollSuccAt0).1 = Except.ok (s2l "ab\ncd")
    ∧ (processImageWithOCR true pollFailAt0).1 = Except.error OcrErr.processingErr := by
  refine ⟨(claim_C2 pollStuck).2.1 (by decide), ?_, ?_⟩
  · have h := ((claim_C2 pollSuccAt0).2.2 0 (by decide)
      (fun j hj => absurd hj (Nat.not_lt_zero j))).1 (by decide)
    rw [h]
    rfl
  · exact ((claim_C2 pollFailAt0).2.2 0 (by decide)
      (fun j hj => absurd hj (Nat.not_lt_zero j))).2 (by decide)

/-- Counterexample to C3 as stated: a PDF whose text layer is the non-empty but
whitespace-only string " ", together with a failing OCR call, yields the 400
no-text error rather than a success response. -/
theorem claim_C3_counterexample :
    (ocrRouterPost (some ⟨s2l "scan.pdf", s2l "application/pdf"⟩) (s2l " ")
        (Except.error OcrErr.processingErr)).1
      = OcrResp.badRequest
          (s2l "No text found in PDF. The PDF may be empty or contain unsupported content.")
    ∧ s2l " " ≠ [] := ⟨rfl, by decide⟩

/-- Claim C3 amended: for every PDF input with a non-blank (not merely
non-empty) text layer and a failing OCR call, the handler succeeds and returns
exactly the deduplicated text-layer content. -/
theorem claim_C3_amended (file : UploadedFile) (textLayer : List Char) (e : OcrErr)
    (hpdf : extOf file.originalname = s2l "pdf")
    (hblank : trimC textLayer ≠ []) :
    ocrRouterPost (some file) textLayer (Except.error e)
      = (OcrResp.ok (dedupText textLayer), true) := by
  simp only [ocrRouterPost]
  rw [hpdf, if_neg (not_not_intro (by decide : s2l "pdf" ∈ supportedExtensions)),
      if_pos rfl, if_neg (fun hemp => hblank (List.isEmpty_iff.mp hemp))]

/-- Witness for C3 (amended) at the text layer "hello". -/
theorem claim_C3_amended_witness :
    ocrRouterPost (some ⟨s2l "doc.pdf", s2l "application/pdf"⟩) (s2l "hello")
        (Except.error OcrErr.timeoutErr)
      = (OcrResp.ok (dedupText (s2l "hello")), true) :=
  claim_C3_amended ⟨s2l "doc.pdf", s2l "application/pdf"⟩ (s2l "hello")
    OcrErr.timeoutErr (by decide) (by decide)

/-- Claim C4: the dedup step is split-on-newline, drop blank lines, keep first
occurrences, rejoin with newline; its line list has no duplicates, no blank
lines, preserves first-seen order (it is a sublist of the filtered split), and
keeps exactly the lines of the filtered split. -/
theorem claim_C4 (text : List Char) :
    dedupText text
        = joinWith '\n'
            (dedupFirst ((splitOnChar '\n' text).filter (fun l => !(trimC l).isEmpty)))
    ∧ (dedupLines text).Nodup
    ∧ (∀ l ∈ dedupLines text, trimC l ≠ [])
    ∧ List.Sublist (dedupLines text)
        ((splitOnChar '\n' text).filter (fun l => !(trimC l).isEmpty))
    ∧ (∀ l, l ∈ dedupLines text
        ↔ l ∈ (splitOnChar '\n' text).filter (fun l => !(trimC l).isEmpty)) := by
  refine ⟨rfl, dedupFirst_nodup _, ?_, dedupFirst_sublist _, fun l => mem_dedupFirst l _⟩
  intro l hl
  have hl2 := (mem_dedupFirst l _).mp hl
  have hf := (List.mem_filter.mp hl2).2
  rw [Bool.not_eq_true'] at hf
  exact (List.isEmpty_eq_false).mp hf

/-- Witness for C4 at the concrete input "a\n\na". -/
theorem claim_C4_witness : trimC (s2l "a") ≠ [] :=
  (claim_C4 (s2l "a\n\na")).2.2.1 (s2l "a") (by decide)

/-- Claim C9: whenever the OCR handler responds successfully, the returned text
is non-blank; both the PDF and the image branch return a 400 error before
responding with blank extracted text. -/
theorem claim_C9 (file? : Option UploadedFile) (pdfTextLayer : List Char)
    (ocr : Except OcrErr (List Char)) (text : List Char) (contacted : Bool)
    (h : ocrRouterPost file? pdfTextLayer ocr = (OcrResp.ok text, contacted)) :
    (trimC text).isEmpty = false := by
  cases file? with
  | none =>
    simp only [ocrRouterPost] at h
    exact absurd h (by simp)
  | some file =>
    by_cases hext : extOf file.originalname ∈ supportedExtensions
    · by_cases hpdf : extOf file.originalname = s2l "pdf"
      · cases ocr with
        | error e =>
          simp only [ocrRouterPost] at h
          rw [if_neg (not_not_intro hext), if_pos hpdf] at h
          split at h
          · exact absurd h (by simp)
          · rename_i hnb
            rw [Prod.mk.injEq] at h
            obtain ⟨h1, h2⟩ := h
            rw [OcrResp.ok.injEq] at h1
            rw [← h1, List.isEmpty_eq_false]
            exact trimC_dedupText_ne_nil _ (ne_nil_of_not_isEmpty _ hnb)
        | ok ocrText =>
          simp only [ocrRouterPost] at h
          rw [if_neg (not_not_intro hext), if_pos hpdf] at h
          split at h
          · split at h
            · exact absurd h (by simp)
            · rename_i hnb
              rw [Prod.mk.injEq] at h
              obtain ⟨h1, h2⟩ := h
              rw [OcrResp.ok.injEq] at h1
              rw [← h1, List.isEmpty_eq_false]
              exact trimC_dedupText_ne_nil _ (ne_nil_of_not_isEmpty _ hnb)
          · split at h
            · exact absurd h (by simp)
            · rename_i hnb
              rw [Prod.mk.injEq] at h
              obtain ⟨h1, h2⟩ := h
              rw [OcrResp.ok.injEq] at h1
              rw [← h1, List.isEmpty_eq_false]
              exact trimC_dedupText_ne_nil _ (ne_nil_of_not_isEmpty _ hnb)
      · cases ocr with
        | error e =>
          simp only [ocrRouterPost] at h
          rw [if_neg (not_not_intro hext), if_neg hpdf] at h
          exact absurd h (by simp)
        | ok t =>
          simp only [ocrRouterPost] at h
          rw [if_neg (not_not_intro hext), if_neg hpdf] at h
          split at h
          · exact absurd h (by simp)
          · rename_i hnb
            rw [Prod.mk.injEq] at h
            obtain ⟨h1, h2⟩ := h
            rw [OcrResp.ok.injEq] at h1
            rw [← h1]
            cases hb : (trimC t).isEmpty with
            | false => rfl
            | true => exact absurd hb hnb
    · simp only [ocrRouterPost] at h
      rw [if_pos hext] at h
      exact absurd h (by simp)

/-- Witness for C9 at a successful image extraction. -/
theorem claim_C9_witness : (trimC (s2l "hi")).isEmpty = false :=
  claim_C9 (some ⟨s2l "a.png", s2l "image/png"⟩) [] (Except.ok (s2l "hi"))
    (s2l "hi") true rfl

/-- Claim C10: for a filename with no dot the gate uses the whole lowercased
name as the extension; a file named exactly "pdf" passes the gate and is
processed as a PDF, and one named "jpg" is processed as an image (the OCR
service is contacted in both runs). -/
theorem claim_C10 (name : List Char) (h : '.' ∉ name) :
    extOf name = toLowerC name
    ∧ ocrRouterPost (some ⟨s2l "pdf", s2l "application/octet-stream"⟩) (s2l "hello")
        (Except.error OcrErr.timeoutErr)
      = (OcrResp.ok (dedupText (s2l "hello")), true)
    ∧ ocrRouterPost (some ⟨s2l "jpg", s2l "application/octet-stream"⟩) []
        (Except.ok (s2l "hi"))
      = (OcrResp.ok (s2l "hi"), true) := by
  refine ⟨?_, rfl, rfl⟩
  unfold extOf
  rw [splitOnChar_of_not_mem '.' name h]
  rfl

/-- Witness for C10 at the dotless filename "pdf". -/
theorem claim_C10_witness :
    extOf (s2l "pdf") = toLowerC (s2l "pdf")
    ∧ ocrRouterPost (some ⟨s2l "pdf", s2l "application/octet-stream"⟩) (s2l "hello")
        (Except.error OcrErr.timeoutErr)
      = (OcrResp.ok (dedupText (s2l "hello")), true)
    ∧ ocrRouterPost (some ⟨s2l "jpg", s2l "application/octet-stream"⟩) []
        (Except.ok (s2l "hi"))
      = (OcrResp.ok (s2l "hi"), true) :=
  claim_C10 (s2l "pdf") (by decide)

-- A returned grading result always passed the handler's shape validation.
theorem gradeEssay_ok_validated (question answer : Option (List Char))
    (rubric : List (List Char × List Char)) (ms : ℚ) (ai : List Char) (g : Json)
    (h : gradeEssayPost question answer rubric ms ai = EssayResp.ok g) :
    scoreIsNumber g = true ∧ jsTruthy (jLookup g (s2l "feedback")) = true
      ∧ jsTruthy (jLookup g (s2l "breakdown")) = true := by
  simp only [gradeEssayPost] at h
  split at h
  · exact absurd h (by simp)
  · split at h
    · exact absurd h (by simp)
    · split at h
      · exact absurd h (by simp)
      · split at h
        · rename_i hcond
          injection h with hgg
          subst hgg
          simp only [Bool.and_eq_true] at hcond
          exact ⟨hcond.1.1, hcond.1.2, hcond.2⟩
        · exact absurd h (by simp)

/-- Counterexample to C5 as stated: an upstream reply with score -1 and
per-criterion max 99 passes the handler's validation and is returned verbatim,
although -1 lies outside [0, 10] and 99 differs from max_score / numCriteria. -/
theorem claim_C5_counterexample :
    (gradeEssayPost (some (s2l "Q")) (some (s2l "A")) cexRubric 10 cexAiResponse).isOk = true
    ∧ jNumOf (jField (respBody (gradeEssayPost (some (s2l "Q")) (some (s2l "A"))
        cexRubric 10 cexAiResponse)) (s2l "score")) = some (-1)
    ∧ ¬ ((0 : ℚ) ≤ -1)
    ∧ jNumOf (jField (jField (jField (respBody (gradeEssayPost (some (s2l "Q"))
        (some (s2l "A")) cexRubric 10 cexAiResponse)) (s2l "breakdown")) (s2l "accuracy"))
        (s2l "max")) = some 99
    ∧ (99 : ℚ) ≠ maxPerCriterion cexRubric 10 := by
  refine ⟨by decide, by decide, by norm_num, by decide, ?_⟩
  have hmpc : maxPerCriterion cexRubric 10 = 10 := by
    unfold maxPerCriterion numCriteria cexRubric
    norm_num
  rw [hmpc]
  norm_num

/-- Claim C5 amended: every grading result returned to the caller passed only
the implemented checks (numeric score, truthy feedback, truthy breakdown); the
handler does not constrain score to [0, max_score] nor the per-criterion maxes
to max_score / numCriteria. -/
theorem claim_C5_amended (question answer : Option (List Char))
    (rubric : List (List Char × List Char)) (max_score : ℚ) (ai : List Char)
    (h : (gradeEssayPost question answer rubric max_score ai).isOk = true) :
    scoreIsNumber (respBodyD (gradeEssayPost question answer rubric max_score ai)) = true
    ∧ jsTruthy (jLookup (respBodyD (gradeEssayPost question answer rubric max_score ai))
        (s2l "feedback")) = true
    ∧ jsTruthy (jLookup (respBodyD (gradeEssayPost question answer rubric max_score ai))
        (s2l "breakdown")) = true := by
  cases hres : gradeEssayPost question answer rubric max_score ai with
  | ok g =>
    have hv := gradeEssay_ok_validated question answer rubric max_score ai g hres
    simpa [respBodyD, respBody] using hv
  | badRequest e =>
    rw [hres] at h
    simp [EssayResp.isOk] at h
  | serverError e d =>
    rw [hres] at h
    simp [EssayResp.isOk] at h

/-- Witness for C5 (amended) at a well-formed upstream reply. -/
theorem claim_C5_witness :
    scoreIsNumber (respBodyD (gradeEssayPost (some (s2l "Q")) (some (s2l "A")) [] 10
        goodAiResponse)) = true
    ∧ jsTruthy (jLookup (respBodyD (gradeEssayPost (some (s2l "Q")) (some (s2l "A")) [] 10
        goodAiResponse)) (s2l "feedback")) = true
    ∧ jsTruthy (jLookup (respBodyD (gradeEssayPost (some (s2l "Q")) (some (s2l "A")) [] 10
        goodAiResponse)) (s2l "breakdown")) = true :=
  claim_C5_amended (some (s2l "Q")) (some (s2l "A")) [] 10 goodAiResponse (by decide)

/-- Claim C6: with k ≥ 1 rubric criteria the prompt builder computes
maxPerCriterion = max_score / k; with an empty rubric it computes
max_score / 4. -/
theorem claim_C6 (rubric : List (List Char × List Char)) (max_score : ℚ) :
    (1 ≤ rubric.length →
      maxPerCriterion rubric max_score = max_score / (rubric.length : ℚ))
    ∧ (rubric = [] → maxPerCriterion rubric max_score = max_score / 4) := by
  constructor
  · intro h
    unfold maxPerCriterion numCriteria
    rw [if_neg (by omega)]
  · intro h
    subst h
    unfold maxPerCriterion numCriteria
    norm_num

/-- Witness for C6 with a one-criterion rubric and with the empty rubric. -/
theorem claim_C6_witness :
    maxPerCriterion cexRubric 10 = 10 / (cexRubric.length : ℚ)
    ∧ maxPerCriterion [] 10 = 10 / 4 :=
  ⟨(claim_C6 cexRubric 10).1 (by decide), (claim_C6 [] 10).2 rfl⟩

/-- Counterexample to C7 as stated: for the fenced non-JSON reply, details
carries the stripped text "not json", which differs from the raw response text
(also after trimming). -/
theorem claim_C7_counterexample :
    gradeEssayPost (some (s2l "Q")) (some (s2l "A")) [] 10 cexFencedGarbage
      = EssayResp.serverError (s2l "Failed to parse AI response.") (some (s2l "not json"))
    ∧ s2l "not json" ≠ cexFencedGarbage
    ∧ s2l "not json" ≠ trimC cexFencedGarbage := ⟨rfl, by decide, by decide⟩

/-- Claim C7 amended: when the cleaned (fence-stripped, trimmed) response is
not valid JSON, a validated request receives the 500 parse-failure response
with the cleaned response text attached as details. -/
theorem claim_C7_amended (question answer : Option (List Char))
    (rubric : List (List Char × List Char)) (ms : ℚ) (ai : List Char)
    (hq : jsFalsyStr question = false) (ha : jsFalsyStr answer = false)
    (hblank : (trimC (answer.getD [])).isEmpty = false)
    (hparse : (jsonParse (stripFences (trimC ai))).isNone = true) :
    gradeEssayPost question answer rubric ms ai
      = EssayResp.serverError (s2l "Failed to parse AI response.")
          (some (stripFences (trimC ai))) := by
  have hp : jsonParse (stripFences (trimC ai)) = none := Option.isNone_iff_eq_none.mp hparse
  simp only [gradeEssayPost]
  rw [hq, ha]
  rw [if_neg (by simp)]
  rw [if_neg (by rw [hblank]; simp)]
  rw [hp]

/-- Witness for C7 (amended) at the unparsable reply "nope". -/
theorem claim_C7_witness :
    gradeEssayPost (some (s2l "Q")) (some (s2l "A")) [] 10 (s2l "nope")
      = EssayResp.serverError (s2l "Failed to parse AI response.")
          (some (stripFences (trimC (s2l "nope")))) :=
  claim_C7_amended (some (s2l "Q")) (some (s2l "A")) [] 10 (s2l "nope")
    (by decide) (by decide) (by decide) (by decide)

/-- Counterexample to C8 as stated: for the payload containing a fence marker
inside a JSON string, stripping the fence-wrapped payload and parsing differs
from parsing the payload directly, because the global replace also deletes the
inner marker. -/
theorem claim_C8_counterexample :
    jsonParse (stripFences (wrapFences cexPayload)) ≠ jsonParse cexPayload := by
  intro h
  have h2 : jStrOf (jField (jsonParse (stripFences (wrapFences cexPayload))) (s2l "a"))
      = jStrOf (jField (jsonParse cexPayload) (s2l "a")) := by rw [h]
  rw [show jStrOf (jField (jsonParse (stripFences (wrapFences cexPayload))) (s2l "a"))
      = some (s2l "xy") from by decide] at h2
  rw [show jStrOf (jField (jsonParse cexPayload) (s2l "a"))
      = some (s2l "x```y") from by decide] at h2
  exact absurd h2 (by decide)

/-- Claim C8 amended: for every payload containing no ``` fence marker,
stripping the markers from the ```json-wrapped payload and then parsing yields
the same result as parsing the trimmed payload directly. -/
theorem claim_C8_amended (p : List Char) (h : hasFence p = false) :
    jsonParse (stripFences (wrapFences p)) = jsonParse (trimC p) := by
  rw [stripFences_wrap p h]

/-- Witness for C8 (amended) at a fence-free JSON payload. -/
theorem claim_C8_witness :
    jsonParse (stripFences (wrapFences plainPayload)) = jsonParse (trimC plainPayload) :=
  claim_C8_amended plainPayload (by decide)
